import Mathlib

/-!
Verification of the SkuVault client-mediation layer: a shallow embedding of
the rate limiter (`src/utils/rate_limiter.py`), the response cache
(`src/utils/cache.py`), the request queue (`src/utils/request_queue.py`) and
the orchestrating `call_endpoint` decorator stack (`src/api_client.py`),
together with theorems settling the specification's claims about them.
Time is modelled with rational numbers on a monotonic clock; `await sleep(d)`
advances the clock by `d`.
-/

namespace SkuVault

/-- Python-style JSON-like values, as far as the client layer inspects them:
dictionaries (key/value lists), strings, integers and lists. -/
inductive PyVal where
  | vstr (s : String)
  | vint (n : Int)
  | vdict (kvs : List (String × PyVal))
  | vlist (xs : List PyVal)

/-- Parameter mappings (Python `**kwargs`). -/
def Params := List (String × PyVal)

/-- `isinstance(value, dict) and "error" in value`: the structural error test
used by `SimpleCache.set` and by the `with_rate_limit`/`with_cache` wrappers. -/
def PyVal.isErrorDict : PyVal → Bool
  | .vdict kvs => kvs.any (fun kv => kv.1 == "error")
  | _ => false

/-! ### String lowercasing and containment (Python `.lower()`, `in`) -/

/-- ASCII lowercasing of one character (Python `.lower()` on the ASCII
endpoint names, cache keys and error messages this layer handles). -/
def lowerChar (c : Char) : Char :=
  if 'A' ≤ c ∧ c ≤ 'Z' then Char.ofNat (c.toNat + 32) else c

/-- Python `s.lower()`. -/
def strLower (s : String) : String :=
  String.mk (s.toList.map lowerChar)

/-- `charsPrefixEq n h`: the char list `n` is a prefix of `h`. -/
def charsPrefixEq : List Char → List Char → Bool
  | [], _ => true
  | _ :: _, [] => false
  | a :: as, b :: bs => a == b && charsPrefixEq as bs

/-- `hasSubChars n h`: the char list `n` occurs contiguously inside `h`. -/
def hasSubChars (n : List Char) : List Char → Bool
  | [] => n.isEmpty
  | c :: rest => charsPrefixEq n (c :: rest) || hasSubChars n rest

/-- Python's `pat in hay` on strings. -/
def strContains (hay pat : String) : Bool :=
  hasSubChars pat.toList hay.toList

/-- Python's `pattern.lower() in key.lower()` (case-insensitive containment),
as used by `SimpleCache.invalidate`. -/
def containsCI (hay pat : String) : Bool :=
  strContains (strLower hay) (strLower pat)

theorem charsPrefixEq_iff (n h : List Char) :
    charsPrefixEq n h = true ↔ n <+: h := by
  induction n generalizing h with
  | nil => simp [charsPrefixEq]
  | cons a as ih =>
    cases h with
    | nil => simp [charsPrefixEq]
    | cons b bs =>
      simp [charsPrefixEq, List.cons_prefix_cons, ih, Bool.and_eq_true,
        beq_iff_eq, and_comm]

theorem hasSubChars_iff (n h : List Char) :
    hasSubChars n h = true ↔ n <:+: h := by
  induction h with
  | nil =>
    simp [hasSubChars, List.isEmpty_iff, List.infix_nil]
  | cons c rest ih =>
    simp only [hasSubChars, Bool.or_eq_true, charsPrefixEq_iff, ih,
      List.infix_cons_iff]

theorem strContains_iff (hay pat : String) :
    strContains hay pat = true ↔ pat.toList <:+: hay.toList := by
  simp [strContains, hasSubChars_iff]

/-- Containment is monotone in the needle: if `hay` contains `n₁ ++ n₂`, it
contains `n₁`. Used to derive that a name containing "products" also
contains "product". -/
theorem strContains_of_append (hay : String) (n₁ n₂ : List Char)
    (h : hasSubChars (n₁ ++ n₂) hay.toList = true) :
    hasSubChars n₁ hay.toList = true := by
  rw [hasSubChars_iff] at h ⊢
  exact ((List.prefix_append n₁ n₂).isInfix).trans h

/-! ### Finite string-keyed maps (Python dicts used by `RateLimiter`) -/

/-- Update a map at a key (`m[k] = v`). -/
def mupd {α : Type} (m : String → Option α) (k : String) (v : α) :
    String → Option α :=
  fun x => if x = k then some v else m x

/-- Delete a key (`del m[k]`, a no-op when absent — the call sites guard with
`if k in m`). -/
def mdel {α : Type} (m : String → Option α) (k : String) :
    String → Option α :=
  fun x => if x = k then none else m x

/-! ### RateLimiter (`src/utils/rate_limiter.py`) -/

/-- The `RateLimiter` instance state: `last_call_times`, `retry_counts`,
`backoff_until` and the mutable `rate_limits` table. -/
structure RateLimiter where
  lastCallTimes : String → Option ℚ
  retryCounts : String → Option ℕ
  backoffUntil : String → Option ℚ
  rateLimits : String → Option ℕ

/-- The static `rate_limits` table from `RateLimiter.__init__`. -/
def initRateLimits : String → Option ℕ := fun k =>
  if k = "getwarehouses" then some 1
  else if k = "getproduct" then some 5
  else if k = "getproducts" then some 5
  else if k = "createproduct" then some 5
  else if k = "updateproduct" then some 5
  else if k = "getinventorybylocation" then some 5
  else if k = "setitemquantity" then some 5
  else if k = "additem" then some 5
  else if k = "removeitem" then some 5
  else if k = "products" then some 5
  else if k = "inventory" then some 5
  else if k = "warehouses" then some 1
  else if k = "default" then some 5
  else none

/-- A freshly constructed `RateLimiter()`. -/
def initRL : RateLimiter :=
  { lastCallTimes := fun _ => none
    retryCounts := fun _ => none
    backoffUntil := fun _ => none
    rateLimits := initRateLimits }

/-- `RateLimiter.get_rate_limit_key`: exact lowercase match against the
limits table, else substring category classification, else "default". -/
def getRateLimitKey (rl : RateLimiter) (endpoint : String) : String :=
  let e := strLower endpoint
  if (rl.rateLimits e).isSome then e
  else if strContains e "product" then "products"
  else if strContains e "warehouse" then "warehouses"
  else if strContains e "inventory" || strContains e "location" then "inventory"
  else "default"

/-- Result of `RateLimiter.wait_if_needed`: the updated limiter, the time at
which the call is dispatched (the clock after all sleeps), and the two sleep
durations (backoff phase, then minimum-interval spacing phase). -/
structure WaitResult where
  rl : RateLimiter
  dispatchTime : ℚ
  sleptBackoff : ℚ
  sleptSpacing : ℚ

/-- `RateLimiter.wait_if_needed(endpoint)` entered at clock time `now`.
Phase 1: if a backoff deadline is recorded and still in the future, sleep
until it and delete it. Phase 2: if a last call time is recorded and
`now - last < 60 / callsPerMinute`, sleep the remainder — the source computes
`time_since_last` from the `current_time` captured before the backoff sleep.
Finally `last_call_times[key]` is set to the post-sleep clock. -/
def waitIfNeeded (rl : RateLimiter) (endpoint : String) (now : ℚ) :
    WaitResult :=
  let key := getRateLimitKey rl endpoint
  let bwPair : ℚ × (String → Option ℚ) :=
    match rl.backoffUntil key with
    | some bu => if 0 < bu - now then (bu - now, mdel rl.backoffUntil key)
                 else (0, rl.backoffUntil)
    | none => (0, rl.backoffUntil)
  let rw : ℚ :=
    match rl.lastCallTimes key with
    | some last =>
        let cpm : ℕ := (rl.rateLimits key).getD 5
        let minInterval : ℚ := 60 / (cpm : ℚ)
        if now - last < minInterval then minInterval - (now - last) else 0
    | none => 0
  let dispatch := now + bwPair.1 + rw
  { rl := { rl with
      backoffUntil := bwPair.2
      lastCallTimes := mupd rl.lastCallTimes key dispatch }
    dispatchTime := dispatch
    sleptBackoff := bwPair.1
    sleptSpacing := rw }

/-- `RateLimiter.handle_rate_limit_error(endpoint, retry_after)` at clock
time `now`: increments the class's retry count, computes the wait
(`retry_after` when truthy — Python's `if retry_after:` treats `None` and
`0.0` alike — else `min(2 ** retry_count, 300)`), records
`backoff_until[key] = now + wait` and returns the wait. -/
def handleRateLimitError (rl : RateLimiter) (endpoint : String)
    (retryAfter : Option ℚ) (now : ℚ) : ℚ × RateLimiter :=
  let key := getRateLimitKey rl endpoint
  let rc := (rl.retryCounts key).getD 0 + 1
  let expWait : ℚ := min ((2 : ℚ) ^ rc) 300
  let wait : ℚ :=
    match retryAfter with
    | some ra => if ra = 0 then expWait else ra
    | none => expWait
  (wait,
    { rl with
      retryCounts := mupd rl.retryCounts key rc
      backoffUntil := mupd rl.backoffUntil key (now + wait) })

/-- `RateLimiter.reset_retry_count(endpoint)`: drops the class's retry
count. -/
def resetRetryCount (rl : RateLimiter) (endpoint : String) : RateLimiter :=
  { rl with retryCounts := mdel rl.retryCounts (getRateLimitKey rl endpoint) }

/-! ### The regex `Only (\d+) API calls? per minute` -/

/-- Longest leading digit run of a char list and the remainder. -/
def digitSpan : List Char → List Char × List Char
  | [] => ([], [])
  | c :: rest =>
      if c.isDigit then
        let p := digitSpan rest
        (c :: p.1, p.2)
      else ([], c :: rest)

/-- Digit chars to the number they denote (most significant first). -/
def digitsToNat (ds : List Char) : ℕ :=
  ds.foldl (fun acc c => acc * 10 + (c.toNat - 48)) 0

/-- Attempt to match `Only (\d+) API calls? per minute` at the head of the
char list, returning the captured number. -/
def matchOnlyAt (cs : List Char) : Option ℕ :=
  if charsPrefixEq "Only ".toList cs then
    let rest := cs.drop 5
    let sp := digitSpan rest
    if sp.1.isEmpty then none
    else
      let afterDigits := sp.2
      if charsPrefixEq " API call".toList afterDigits then
        let tail9 := afterDigits.drop 9
        let noS := charsPrefixEq " per minute".toList tail9
        let withS :=
          charsPrefixEq "s".toList tail9 &&
            charsPrefixEq " per minute".toList (tail9.drop 1)
        if noS || withS then some (digitsToNat sp.1) else none
      else none
  else none

/-- `re.search(r'Only (\d+) API calls? per minute', msg)`: leftmost match. -/
def extractRateLimit' : List Char → Option ℕ
  | [] => matchOnlyAt []
  | c :: rest =>
      match matchOnlyAt (c :: rest) with
      | some n => some n
      | none => extractRateLimit' rest

/-- Extract the advertised calls-per-minute limit from an error message. -/
def extractRateLimit (msg : String) : Option ℕ :=
  extractRateLimit' msg.toList

/-- `RateLimiter.update_rate_limit_from_error(endpoint, error_message)`:
on a regex match, rewrite the limits-table entry for the exact lowercased
endpoint name; otherwise change nothing. -/
def updateRateLimitFromError (rl : RateLimiter) (endpoint msg : String) :
    RateLimiter :=
  match extractRateLimit msg with
  | some n => { rl with rateLimits := mupd rl.rateLimits (strLower endpoint) n }
  | none => rl

/-! ### ResponseCache (`src/utils/cache.py`)

`SimpleCache._get_cache_key` strips the credential tokens and md5-hashes a
stable JSON rendering of `(endpoint, params)`; the hash itself is opaque to
every property below, so the key function is carried as an explicit
parameter `keyFn` and the theorems hold for every choice of it. -/

/-- The `SimpleCache` state: the entry dict (key, value, expiry time) and the
configured `default_ttl`. -/
structure SimpleCache where
  cache : List (String × PyVal × ℚ)
  defaultTtl : ℚ

/-- A freshly constructed `SimpleCache()` (`default_ttl = 300`, the global
instance's configuration). -/
def initCache : SimpleCache := { cache := [], defaultTtl := 300 }

/-- The `ttl_config` dict, in its insertion (= iteration) order. -/
def ttlConfig (c : SimpleCache) : List (String × ℚ) :=
  [("warehouses", 3600), ("product", 300), ("products", 60),
   ("inventory", 30), ("default", c.defaultTtl)]

/-- `SimpleCache._get_ttl(endpoint)`: first `ttl_config` key contained in the
lowercased endpoint name wins; else `default_ttl`. -/
def getTtl (c : SimpleCache) (endpoint : String) : ℚ :=
  match (ttlConfig c).find? (fun kv => strContains (strLower endpoint) kv.1) with
  | some kv => kv.2
  | none => c.defaultTtl

/-- Association-list lookup standing in for the Python dict read. -/
def alist.lookup (l : List (String × PyVal × ℚ)) (k : String) :
    Option (PyVal × ℚ) :=
  match l.find? (fun e => e.1 == k) with
  | some e => some e.2
  | none => none

/-- Dict write `d[k] = v`: replace the entry if the key exists, else append. -/
def alist.store (l : List (String × PyVal × ℚ)) (k : String)
    (v : PyVal × ℚ) : List (String × PyVal × ℚ) :=
  match l with
  | [] => [(k, v)]
  | e :: rest =>
      if e.1 = k then (k, v) :: rest else e :: alist.store rest k v

/-- Dict delete `del d[k]`. -/
def alist.erase (l : List (String × PyVal × ℚ)) (k : String) :
    List (String × PyVal × ℚ) :=
  l.filter (fun e => ¬ e.1 = k)

/-- `SimpleCache.get(endpoint, params)` at clock time `now`: returns the
value while unexpired; an expired entry is deleted on read and the call
misses. -/
def cacheGet (keyFn : String → Params → String) (c : SimpleCache)
    (endpoint : String) (params : Params) (now : ℚ) :
    Option PyVal × SimpleCache :=
  let key := keyFn endpoint params
  match alist.lookup c.cache key with
  | some ve =>
      if now < ve.2 then (some ve.1, c)
      else (none, { c with cache := alist.erase c.cache key })
  | none => (none, c)

/-- `SimpleCache.set(endpoint, params, value, ttl)` at clock time `now`:
a no-op when the value is an error dict; otherwise stores the value with
expiry `now + ttl`, where `ttl = ttl or self._get_ttl(endpoint)` — Python
truthiness makes an explicit `ttl=0` fall back to the table. -/
def cacheSet (keyFn : String → Params → String) (c : SimpleCache)
    (endpoint : String) (params : Params) (value : PyVal)
    (ttl : Option ℚ) (now : ℚ) : SimpleCache :=
  if value.isErrorDict then c
  else
    let key := keyFn endpoint params
    let t : ℚ :=
      match ttl with
      | some t => if t = 0 then getTtl c endpoint else t
      | none => getTtl c endpoint
    { c with cache := alist.store c.cache key (value, now + t) }

/-- `SimpleCache.invalidate(pattern)`: with a pattern, remove every entry
whose key contains it case-insensitively; with none, clear everything.
Returns the number of entries removed. -/
def cacheInvalidate (c : SimpleCache) (pattern : Option String) :
    ℕ × SimpleCache :=
  match pattern with
  | some p =>
      let keep := c.cache.filter (fun e => !(containsCI e.1 p))
      ((c.cache.filter (fun e => containsCI e.1 p)).length,
        { c with cache := keep })
  | none => (c.cache.length, { c with cache := [] })

/-! ### Python `str()` on the values the layer inspects -/

mutual
/-- Python `repr` of a value, as used inside container renderings. -/
def pyRepr : PyVal → String
  | .vstr s => "'" ++ s ++ "'"
  | .vint n => toString n
  | .vdict kvs => "\x7b" ++ pyReprKVs kvs ++ "\x7d"
  | .vlist xs => "[" ++ pyReprElems xs ++ "]"

/-- Renders `'k': v` pairs, comma-separated. -/
def pyReprKVs : List (String × PyVal) → String
  | [] => ""
  | [kv] => "'" ++ kv.1 ++ "': " ++ pyRepr kv.2
  | kv :: rest => "'" ++ kv.1 ++ "': " ++ pyRepr kv.2 ++ ", " ++ pyReprKVs rest

/-- Renders list elements, comma-separated. -/
def pyReprElems : List PyVal → String
  | [] => ""
  | [x] => pyRepr x
  | x :: rest => pyRepr x ++ ", " ++ pyReprElems rest
end

/-- Python `str(v)`: like `repr` except a top-level string is unquoted. -/
def pyStr : PyVal → String
  | .vstr s => s
  | v => pyRepr v

/-! ### The `with_rate_limit` / `with_cache` decorator stack
(`src/api_client.py`: `call_endpoint` is wrapped by `@with_cache` and, on the
outside, `@with_rate_limit`) -/

/-- Shared mutable state threaded through one `call_endpoint` invocation,
plus the monotonic clock. -/
structure ClientState where
  rl : RateLimiter
  cache : SimpleCache
  now : ℚ

/-- Observable events of one invocation, in order. -/
inductive Event where
  | rlWait (slept : ℚ)
  | cacheHit
  | cacheMiss
  | httpCall
  | backoffSleep (d : ℚ)

/-- `str(result.get("error", ""))` for a dict result. -/
def errMsgOf (result : PyVal) : String :=
  match result with
  | .vdict kvs =>
      match kvs.find? (fun kv => kv.1 == "error") with
      | some kv => pyStr kv.2
      | none => ""
  | _ => ""

/-- The wrapper's rate-limit test: the result is a dict with an "error" key
and its message contains "429" or (lowercased) "rate limit". -/
def rlDetect (result : PyVal) : Bool :=
  result.isErrorDict &&
    (strContains (errMsgOf result) "429" ||
      strContains (strLower (errMsgOf result)) "rate limit")

/-- Chars after the first occurrence of `pat` (Python `hay.split(pat)[1]`,
`none` when `pat` does not occur). -/
def splitAfterSub : List Char → List Char → Option (List Char)
  | [], pat => if pat.isEmpty then some [] else none
  | c :: rest, pat =>
      if charsPrefixEq pat (c :: rest) then some ((c :: rest).drop pat.length)
      else splitAfterSub rest pat

/-- First whitespace-delimited token (Python `s.split()[0]`, empty when there
is none, which the source turns into `None` via its bare `except`). -/
def firstToken (cs : List Char) : List Char :=
  ((cs.dropWhile (fun c => c.isWhitespace)).takeWhile
    (fun c => ¬ c.isWhitespace = true))

/-- Python `float(...)` on a simple decimal literal: optional sign, integer
digits, optional fraction; anything else fails. -/
def parseFloatQ (cs : List Char) : Option ℚ :=
  let sp : ℚ × List Char :=
    match cs with
    | '-' :: r => (-1, r)
    | '+' :: r => (1, r)
    | r => (1, r)
  let ip := digitSpan sp.2
  match ip.2 with
  | [] => if ip.1.isEmpty then none else some (sp.1 * (digitsToNat ip.1 : ℚ))
  | '.' :: r2 =>
      let fp := digitSpan r2
      if fp.2.isEmpty then
        if ip.1.isEmpty && fp.1.isEmpty then none
        else some (sp.1 * ((digitsToNat ip.1 : ℚ) +
          (digitsToNat fp.1 : ℚ) / (10 : ℚ) ^ fp.1.length))
      else none
  | _ => none

/-- The wrapper's `Retry after` extraction:
`float(error_msg.split("Retry after")[1].split()[0])`, `None` on any
failure. -/
def parseRetryAfter (msg : String) : Option ℚ :=
  match splitAfterSub msg.toList "Retry after".toList with
  | none => none
  | some rest =>
      let tok := firstToken rest
      if tok.isEmpty then none else parseFloatQ tok

/-- The `with_cache`-wrapped inner call: consult the cache first; on a miss,
invoke the transport (the raw `call_endpoint` body's HTTP POST, abstracted as
a function of endpoint, parameters and time) and cache a non-error result. -/
def cachedCall (keyFn : String → Params → String)
    (transport : String → Params → ℚ → PyVal) (st : ClientState)
    (endpoint : String) (params : Params) :
    PyVal × ClientState × List Event :=
  match cacheGet keyFn st.cache endpoint params st.now with
  | (some v, c') => (v, { st with cache := c' }, [Event.cacheHit])
  | (none, c') =>
      let result := transport endpoint params st.now
      let c'' :=
        if result.isErrorDict then c'
        else cacheSet keyFn c' endpoint params result none st.now
      (result, { st with cache := c'' }, [Event.cacheMiss, Event.httpCall])

/-- The `with_rate_limit` retry loop with `fuel` attempts remaining
(`fuel = max_retries - retry_count`; entered with `fuel = 3`). Each attempt:
gate through `wait_if_needed`, run the cache-wrapped call, and on a detected
rate-limit error update the limits table, compute the backoff and — unless
this was the final attempt — sleep it and retry; any other result resets the
retry count and returns. The final attempt's rate-limited result falls
through to the same reset-and-return. -/
def rlLoop (keyFn : String → Params → String)
    (transport : String → Params → ℚ → PyVal)
    (endpoint : String) (params : Params) :
    ℕ → ClientState → PyVal × ClientState × List Event
  | 0, st => (PyVal.vdict [], st, [])
  | fuel + 1, st =>
      let w := waitIfNeeded st.rl endpoint st.now
      let st1 : ClientState :=
        { rl := w.rl, cache := st.cache, now := w.dispatchTime }
      let inner := cachedCall keyFn transport st1 endpoint params
      let result := inner.1
      let st2 := inner.2.1
      let evs := Event.rlWait (w.sleptBackoff + w.sleptSpacing) :: inner.2.2
      if rlDetect result then
        let msg := errMsgOf result
        let rlU := updateRateLimitFromError st2.rl endpoint msg
        let hw := handleRateLimitError rlU endpoint (parseRetryAfter msg) st2.now
        let st3 : ClientState := { st2 with rl := hw.2 }
        if 0 < fuel then
          let st4 : ClientState := { st3 with now := st3.now + hw.1 }
          let recres := rlLoop keyFn transport endpoint params fuel st4
          (recres.1, recres.2.1, evs ++ Event.backoffSleep hw.1 :: recres.2.2)
        else
          (result, { st3 with rl := resetRetryCount st3.rl endpoint }, evs)
      else
        (result, { st2 with rl := resetRetryCount st2.rl endpoint }, evs)

/-- One invocation of the decorated `SkuVaultClient.call_endpoint`
(`max_retries = 3`). -/
def callEndpoint (keyFn : String → Params → String)
    (transport : String → Params → ℚ → PyVal) (st : ClientState)
    (endpoint : String) (params : Params) :
    PyVal × ClientState × List Event :=
  rlLoop keyFn transport endpoint params 3 st

/-! ### RequestQueue (`src/utils/request_queue.py`) -/

/-- A `QueuedRequest` as enqueued: the priority-queue entry is
`(-priority, created_at, request)`. -/
structure QueuedRequest where
  rid : String
  endpoint : String
  params : Params
  priority : ℤ
  createdAt : ℚ

/-- Heap order on queue entries: smaller `(-priority, created_at)` pops
first, so higher priority wins and ties go to the earlier arrival. -/
def heapLt (a b : QueuedRequest) : Bool :=
  -a.priority < -b.priority ||
    (-a.priority = -b.priority && a.createdAt < b.createdAt)

/-- Pop the minimal entry of the priority queue (`queue.get()`), keeping the
earliest among equal keys. -/
def popMin : List QueuedRequest → Option (QueuedRequest × List QueuedRequest)
  | [] => none
  | r :: rest =>
      match popMin rest with
      | none => some (r, [])
      | some p => if heapLt p.1 r then some (p.1, r :: p.2)
                  else some (r, rest)

/-- The worker-visible queue state: pending entries and
`active_requests`. -/
structure QueueState where
  queued : List QueuedRequest
  active : ℕ

/-- What one iteration of `_process_queue` does. -/
inductive WorkerAction where
  | poll
  | dispatch (r : QueuedRequest)
  | idle

/-- One iteration of the `_process_queue` loop: at capacity
(`active_requests >= max_concurrent`) it sleeps 0.1s and re-checks
(no dispatch); otherwise it pops the best entry, increments
`active_requests` and spawns the execution; an empty queue times out the
`get` and loops (`idle`). -/
def workerStep (maxConc : ℕ) (s : QueueState) : WorkerAction × QueueState :=
  if maxConc ≤ s.active then (.poll, s)
  else
    match popMin s.queued with
    | some p => (.dispatch p.1, { queued := p.2, active := s.active + 1 })
    | none => (.idle, s)

/-- Interleaved system steps: one worker-loop iteration, or the `finally`
of a running `_process_request` releasing its slot. -/
inductive QStep (maxConc : ℕ) : QueueState → QueueState → Prop where
  | worker (s : QueueState) : QStep maxConc s (workerStep maxConc s).2
  | complete (s : QueueState) (h : 0 < s.active) :
      QStep maxConc s { s with active := s.active - 1 }

/-- States reachable from an initial state by interleaved steps. -/
inductive QReachable (maxConc : ℕ) (init : QueueState) :
    QueueState → Prop where
  | refl : QReachable maxConc init init
  | tail {s t : QueueState} : QReachable maxConc init s →
      QStep maxConc s t → QReachable maxConc init t

/-! ### `RequestQueue.get_result` -/

/-- A stored `RequestResult` (`self.results[request_id]`). -/
inductive StoredResult where
  | succeeded (payload : PyVal)
  | failed (msg : String)

/-- What `get_result` can do: return the stored payload, raise the stored
error, or raise `TimeoutError`. -/
inductive GetOutcome where
  | ok (payload : PyVal)
  | raisedStored (msg : String)
  | timedOut

/-- The polling loop of `get_result`, with `res i` the contents of
`self.results[request_id]` as observed at the `i`-th poll and `fuel` the
number of polls the `timeout` allows (one per 0.1s sleep). Exhausting the
fuel raises `TimeoutError`. -/
def getResultLoop (res : ℕ → Option StoredResult) :
    ℕ → ℕ → GetOutcome
  | _, 0 => .timedOut
  | i, fuel + 1 =>
      match res i with
      | some (.succeeded p) => .ok p
      | some (.failed m) => .raisedStored m
      | none => getResultLoop res (i + 1) fuel

/-- `RequestQueue.get_result(request_id, timeout)` with `fuel` polls. -/
def getResult (res : ℕ → Option StoredResult) (fuel : ℕ) : GetOutcome :=
  getResultLoop res 0 fuel

/-! ### Cache operation sequences (for the no-error-entries invariant) -/

/-- One public `SimpleCache` operation. -/
inductive CacheOp where
  | opGet (e : String) (p : Params) (t : ℚ)
  | opSet (e : String) (p : Params) (v : PyVal) (ttl : Option ℚ) (t : ℚ)
  | opInvalidate (pat : Option String)

/-- State effect of one cache operation. -/
def applyOp (keyFn : String → Params → String) (c : SimpleCache) :
    CacheOp → SimpleCache
  | .opGet e p t => (cacheGet keyFn c e p t).2
  | .opSet e p v ttl t => cacheSet keyFn c e p v ttl t
  | .opInvalidate pat => (cacheInvalidate c pat).2

/-- Run a sequence of cache operations. -/
def runOps (keyFn : String → Params → String) (c : SimpleCache)
    (ops : List CacheOp) : SimpleCache :=
  ops.foldl (applyOp keyFn) c

/-- No entry present in the cache is an error value. -/
def errFree (c : SimpleCache) : Prop :=
  ∀ entry ∈ c.cache, entry.2.1.isErrorDict = false

/-- 100 bulk work items with the defaults of `add_bulk_requests`
(priority 5), used to exercise the queue claims. -/
def bulkRequests100 : List QueuedRequest :=
  (List.range 100).map
    (fun i => { rid := toString i, endpoint := "getproducts", params := []
                priority := 5, createdAt := (i : ℚ) })

/-! ## Helper lemmas -/

theorem getRateLimitKey_congr (rl rl' : RateLimiter) (e : String)
    (h : rl.rateLimits = rl'.rateLimits) :
    getRateLimitKey rl e = getRateLimitKey rl' e := by
  unfold getRateLimitKey
  rw [h]

theorem waitIfNeeded_rateLimits (rl : RateLimiter) (e : String) (t : ℚ) :
    (waitIfNeeded rl e t).rl.rateLimits = rl.rateLimits := rfl

theorem waitIfNeeded_lastCallTimes (rl : RateLimiter) (e : String) (t : ℚ) :
    (waitIfNeeded rl e t).rl.lastCallTimes
      = mupd rl.lastCallTimes (getRateLimitKey rl e)
          (waitIfNeeded rl e t).dispatchTime := rfl

theorem waitIfNeeded_dispatchTime (rl : RateLimiter) (e : String) (t : ℚ) :
    (waitIfNeeded rl e t).dispatchTime
      = t + (waitIfNeeded rl e t).sleptBackoff
          + (waitIfNeeded rl e t).sleptSpacing := rfl

theorem sleptBackoff_nonneg (rl : RateLimiter) (e : String) (t : ℚ) :
    0 ≤ (waitIfNeeded rl e t).sleptBackoff := by
  unfold waitIfNeeded
  rcases h : rl.backoffUntil (getRateLimitKey rl e) with _ | bu
  · simp [h]
  · simp only [h]
    split <;> simp_all <;> linarith

theorem sleptSpacing_of_last (rl : RateLimiter) (e : String) (t last : ℚ)
    (hlast : rl.lastCallTimes (getRateLimitKey rl e) = some last) :
    (waitIfNeeded rl e t).sleptSpacing
      = (if t - last < 60 / (((rl.rateLimits (getRateLimitKey rl e)).getD 5 : ℕ) : ℚ)
          then 60 / (((rl.rateLimits (getRateLimitKey rl e)).getD 5 : ℕ) : ℚ) - (t - last)
          else 0) := by
  unfold waitIfNeeded
  simp [hlast]

theorem handleRateLimitError_retryCounts (rl : RateLimiter) (e : String)
    (ra : Option ℚ) (t : ℚ) :
    (handleRateLimitError rl e ra t).2.retryCounts
      = mupd rl.retryCounts (getRateLimitKey rl e)
          ((rl.retryCounts (getRateLimitKey rl e)).getD 0 + 1) := rfl

theorem handleRateLimitError_rateLimits (rl : RateLimiter) (e : String)
    (ra : Option ℚ) (t : ℚ) :
    (handleRateLimitError rl e ra t).2.rateLimits = rl.rateLimits := rfl

theorem waitIfNeeded_dispatch_of_none (rl : RateLimiter) (e k : String)
    (t : ℚ) (hk : getRateLimitKey rl e = k)
    (hb : rl.backoffUntil k = none) (hl : rl.lastCallTimes k = none) :
    (waitIfNeeded rl e t).dispatchTime = t := by
  unfold waitIfNeeded
  rw [hk]
  simp [hb, hl]

theorem waitIfNeeded_dispatch_of_last (rl : RateLimiter) (e k : String)
    (t last : ℚ) (hk : getRateLimitKey rl e = k)
    (hb : rl.backoffUntil k = none) (hl : rl.lastCallTimes k = some last) :
    (waitIfNeeded rl e t).dispatchTime
      = t + (if t - last < 60 / (((rl.rateLimits k).getD 5 : ℕ) : ℚ)
          then 60 / (((rl.rateLimits k).getD 5 : ℕ) : ℚ) - (t - last)
          else 0) := by
  unfold waitIfNeeded
  rw [hk]
  simp [hb, hl]

/-- C4: two calls gated through `wait_if_needed` on the same endpoint class
are dispatched at least `60 / callsPerMinute` seconds apart: if the first is
gated at clock `t0` and the second enters the gate at clock `t1` (after the
first dispatched), the second's dispatch time is at least the first's plus
the minimum interval. -/
theorem waitIfNeeded_min_interval (rl : RateLimiter) (e1 e2 : String)
    (t0 t1 : ℚ) (k : String) (cpm : ℕ)
    (hk1 : getRateLimitKey rl e1 = k)
    (hk2 : getRateLimitKey rl e2 = k)
    (hcpm : (rl.rateLimits k).getD 5 = cpm)
    (hpos : 0 < cpm) :
    (waitIfNeeded rl e1 t0).dispatchTime + 60 / (cpm : ℚ)
      ≤ (waitIfNeeded (waitIfNeeded rl e1 t0).rl e2 t1).dispatchTime := by
  set w1 := waitIfNeeded rl e1 t0 with hw1
  have hkey2 : getRateLimitKey w1.rl e2 = k := by
    rw [← hk2]
    exact getRateLimitKey_congr _ _ _ (waitIfNeeded_rateLimits rl e1 t0)
  have hlast : w1.rl.lastCallTimes k = some w1.dispatchTime := by
    rw [hw1, waitIfNeeded_lastCallTimes, hk1, mupd]
    simp
  have hlast2 : w1.rl.lastCallTimes (getRateLimitKey w1.rl e2)
      = some w1.dispatchTime := by rw [hkey2]; exact hlast
  have hcpm2 : (w1.rl.rateLimits (getRateLimitKey w1.rl e2)).getD 5 = cpm := by
    rw [hkey2, hw1, waitIfNeeded_rateLimits, hcpm]
  have hsp := sleptSpacing_of_last w1.rl e2 t1 w1.dispatchTime hlast2
  rw [hcpm2] at hsp
  have hbw := sleptBackoff_nonneg w1.rl e2 t1
  rw [waitIfNeeded_dispatchTime w1.rl e2 t1, hsp]
  have hmi : (0 : ℚ) < 60 / (cpm : ℚ) := by
    apply div_pos (by norm_num)
    exact_mod_cast hpos
  split
  · linarith
  · next h => push_neg at h; linarith

/-- Witness for C4: the spec's scenario — limit 1/min for "getwarehouses",
first call gated at t=0, second at t=10 — dispatches the second no earlier
than t=60. -/
theorem waitIfNeeded_min_interval_witness :
    (waitIfNeeded initRL "getwarehouses" 0).dispatchTime = 0 ∧
    (60 : ℚ)
      ≤ (waitIfNeeded (waitIfNeeded initRL "getwarehouses" 0).rl
          "getwarehouses" 10).dispatchTime := by
  have h0 : (waitIfNeeded initRL "getwarehouses" 0).dispatchTime = 0 :=
    waitIfNeeded_dispatch_of_none initRL "getwarehouses" "getwarehouses" 0
      (by decide) rfl rfl
  refine ⟨h0, ?_⟩
  have h := waitIfNeeded_min_interval initRL "getwarehouses" "getwarehouses"
    0 10 "getwarehouses" 1 (by decide) (by decide) (by decide) (by decide)
  rw [h0] at h
  calc (60 : ℚ) = 0 + 60 / ((1 : ℕ) : ℚ) := by norm_num
  _ ≤ _ := h

theorem resetRetryCount_rateLimits (rl : RateLimiter) (e : String) :
    (resetRetryCount rl e).rateLimits = rl.rateLimits := rfl

/-- C3 (amended): `handle_rate_limit_error` waits the server-supplied
`retryAfter` whenever a nonzero one is supplied (Python truthiness treats a
supplied `0` like an absent value), and otherwise `min(2^retryCount, 300)`
for the just-incremented count; without an intervening success consecutive
backoff waits are non-decreasing and capped at 300 s; the computed wait is
scheduled as `backoffUntil = now + wait`; and after `reset_retry_count` the
next computed backoff is the base value 2 s. -/
theorem handleRateLimitError_backoff (rl : RateLimiter) (e : String)
    (t t' : ℚ) :
    (∀ ra : ℚ, ra ≠ 0 → (handleRateLimitError rl e (some ra) t).1 = ra) ∧
    ((handleRateLimitError rl e none t).1
        = min ((2 : ℚ) ^ ((rl.retryCounts (getRateLimitKey rl e)).getD 0 + 1))
            300) ∧
    ((handleRateLimitError rl e none t).1 ≤ 300) ∧
    ((handleRateLimitError rl e none t).1
        ≤ (handleRateLimitError (handleRateLimitError rl e none t).2 e none
            t').1) ∧
    ((handleRateLimitError (resetRetryCount rl e) e none t').1 = 2) ∧
    ((handleRateLimitError rl e none t).2.backoffUntil (getRateLimitKey rl e)
        = some (t + (handleRateLimitError rl e none t).1)) := by
  refine ⟨?_, rfl, ?_, ?_, ?_, ?_⟩
  · intro ra hra
    simp [handleRateLimitError, hra]
  · exact min_le_right _ _
  · have hkey : getRateLimitKey (handleRateLimitError rl e none t).2 e
        = getRateLimitKey rl e :=
      getRateLimitKey_congr _ _ _ (handleRateLimitError_rateLimits rl e none t)
    show min _ 300 ≤ min _ 300
    rw [hkey, handleRateLimitError_retryCounts, mupd]
    simp only [eq_self_iff_true, if_true, Option.getD_some]
    exact min_le_min (pow_le_pow_right₀ (by norm_num) (Nat.le_succ _)) le_rfl
  · have hkey : getRateLimitKey (resetRetryCount rl e) e
        = getRateLimitKey rl e :=
      getRateLimitKey_congr _ _ _ (resetRetryCount_rateLimits rl e)
    show min _ 300 = 2
    rw [hkey]
    show min ((2 : ℚ) ^
      (((resetRetryCount rl e).retryCounts (getRateLimitKey rl e)).getD 0 + 1))
        300 = 2
    have hdel : (resetRetryCount rl e).retryCounts (getRateLimitKey rl e)
        = none := by
      simp [resetRetryCount, mdel]
    rw [hdel]
    norm_num
  · show mupd rl.backoffUntil (getRateLimitKey rl e) _ (getRateLimitKey rl e)
        = _
    rw [mupd]
    simp only [eq_self_iff_true, if_true, Option.some_inj, add_right_inj]
    exact rfl

/-- Witness for C3: a nonzero supplied retry time of 7 s is used verbatim;
the exponential wait is capped by 300; and after a reset the next backoff is
the base 2 s. -/
theorem handleRateLimitError_backoff_witness :
    (handleRateLimitError initRL "getproducts" (some 7) 0).1 = 7 ∧
    (handleRateLimitError initRL "getproducts" none 0).1 ≤ 300 ∧
    (handleRateLimitError (resetRetryCount initRL "getproducts")
      "getproducts" none 5).1 = 2 := by
  have h := handleRateLimitError_backoff initRL "getproducts" 0 5
  exact ⟨h.1 7 (by norm_num), h.2.2.1, h.2.2.2.2.1⟩

/-- Counterexample for C3 as frozen: a server-supplied `retryAfter = 0` is
not used — the code's `if retry_after:` is false for `0.0`, so the
exponential backoff (2 s on a fresh class) is scheduled instead of the
supplied 0 s. -/
theorem handleRateLimitError_zero_counterexample :
    (handleRateLimitError initRL "getproducts" (some 0) 0).1 = 2 ∧
    (2 : ℚ) ≠ 0 := by
  constructor
  · have hk : getRateLimitKey initRL "getproducts" = "getproducts" := by
      decide
    simp [handleRateLimitError, hk, initRL]
    norm_num
  · norm_num

/-! ### C2: TTL resolution -/

theorem strContains_products_product (s : String)
    (h : strContains s "products" = true) : strContains s "product" = true := by
  have he : "products".toList = "product".toList ++ ['s'] := by decide
  unfold strContains at h ⊢
  rw [he] at h
  exact strContains_of_append s _ _ h

/-- C2 (amended): a `set` without an explicit ttl stores the entry with the
TTL of the first matching category in `ttl_config` iteration order
(warehouses 3600, product 300, products 60, inventory 30, default) — so an
endpoint whose lowercase name contains "products" (and not "warehouses") is
cached for 300 seconds, because "product" matches first and the
"products" → 60 entry is unreachable; one containing "warehouses" for 3600
seconds; one containing "inventory" (and none of the earlier keys) for 30
seconds; and an unclassified endpoint for the configured default of 300
seconds. -/
theorem ttl_policy_first_match (c : SimpleCache) (e : String)
    (hd : c.defaultTtl = 300) :
    (strContains (strLower e) "products" = true →
      strContains (strLower e) "warehouses" = false → getTtl c e = 300) ∧
    (strContains (strLower e) "warehouses" = true → getTtl c e = 3600) ∧
    (strContains (strLower e) "inventory" = true →
      strContains (strLower e) "warehouses" = false →
      strContains (strLower e) "product" = false → getTtl c e = 30) ∧
    (strContains (strLower e) "warehouses" = false →
      strContains (strLower e) "product" = false →
      strContains (strLower e) "inventory" = false →
      strContains (strLower e) "default" = false → getTtl c e = 300) ∧
    (∀ (keyFn : String → Params → String) (p : Params) (v : PyVal) (now : ℚ),
      v.isErrorDict = false →
      cacheSet keyFn c e p v none now
        = { c with
            cache := alist.store c.cache (keyFn e p) (v, now + getTtl c e) }) := by
  refine ⟨?_, ?_, ?_, ?_, ?_⟩
  · intro h1 h2
    have hp := strContains_products_product _ h1
    unfold getTtl ttlConfig
    simp [List.find?, h2, hp]
  · intro h1
    unfold getTtl ttlConfig
    simp [List.find?, h1]
  · intro h1 h2 h3
    have hps : strContains (strLower e) "products" = false := by
      by_contra hc
      rw [Bool.not_eq_false] at hc
      exact absurd (strContains_products_product _ hc) (by simp [h3])
    unfold getTtl ttlConfig
    simp [List.find?, h1, h2, h3, hps]
  · intro h1 h2 h3 h4
    have hps : strContains (strLower e) "products" = false := by
      by_contra hc
      rw [Bool.not_eq_false] at hc
      exact absurd (strContains_products_product _ hc) (by simp [h2])
    unfold getTtl ttlConfig
    simp [List.find?, h1, h2, h3, h4, hps, hd]
  · intro keyFn p v now hv
    simp [cacheSet, hv]

/-- Witness for C2 (amended), at the table's own representative endpoints:
"getproducts" resolves to 300 s, "getwarehouses" to 3600 s,
"getinventorybylocation" to 30 s, and the unclassified "gettransactions" to
the default 300 s; and a ttl-less `set` of "getproducts" stores expiry
`now + 300`. -/
theorem ttl_policy_first_match_witness :
    getTtl initCache "getproducts" = 300 ∧
    getTtl initCache "getwarehouses" = 3600 ∧
    getTtl initCache "getinventorybylocation" = 30 ∧
    getTtl initCache "gettransactions" = 300 ∧
    cacheSet (fun en _ => en) initCache "getproducts" [] (PyVal.vstr "r")
        none 0
      = { cache := [("getproducts", PyVal.vstr "r", 0 + 300)],
          defaultTtl := 300 } := by
  have h1 := ttl_policy_first_match initCache "getproducts" rfl
  have h2 := ttl_policy_first_match initCache "getwarehouses" rfl
  have h3 := ttl_policy_first_match initCache "getinventorybylocation" rfl
  have h4 := ttl_policy_first_match initCache "gettransactions" rfl
  refine ⟨h1.1 (by decide) (by decide), h2.2.1 (by decide),
    h3.2.2.1 (by decide) (by decide) (by decide),
    h4.2.2.2.1 (by decide) (by decide) (by decide) (by decide), ?_⟩
  have h5 := h1.2.2.2.2 (fun en _ => en) [] (PyVal.vstr "r") 0 (by decide)
  rw [h5, h1.1 (by decide) (by decide)]
  rfl

/-- Counterexample for C2 as frozen: the endpoint "getproducts" contains
"products", yet its resolved TTL is 300 seconds, not the claimed 60 — the
"product" entry of `ttl_config` is iterated before "products" and matches
first. -/
theorem ttl_products_counterexample :
    getTtl initCache "getproducts" = 300 ∧ (300 : ℚ) ≠ 60 := by
  exact ⟨by decide, by norm_num⟩

/-! ### C5: invalidate -/

/-- C5: `invalidate(pattern)` removes exactly the entries whose cache key
contains the pattern case-insensitively and returns the number removed
(removed + remaining = former total); an immediate second call with the same
pattern returns 0; `invalidate()` with no pattern removes every entry and
returns the former entry count. -/
theorem cacheInvalidate_exact (c : SimpleCache) (p : String) :
    (∀ entry, entry ∈ (cacheInvalidate c (some p)).2.cache
        ↔ entry ∈ c.cache ∧ containsCI entry.1 p = false) ∧
    ((cacheInvalidate c (some p)).1
        + (cacheInvalidate c (some p)).2.cache.length = c.cache.length) ∧
    ((cacheInvalidate (cacheInvalidate c (some p)).2 (some p)).1 = 0) ∧
    ((cacheInvalidate c none).1 = c.cache.length ∧
      (cacheInvalidate c none).2.cache = []) := by
  refine ⟨?_, ?_, ?_, rfl, rfl⟩
  · intro entry
    simp [cacheInvalidate, List.mem_filter]
  · show (c.cache.filter (fun en => containsCI en.1 p)).length
        + (c.cache.filter (fun en => !(containsCI en.1 p))).length
        = c.cache.length
    exact (List.length_eq_length_filter_add
      (fun (en : String × PyVal × ℚ) => containsCI en.1 p)).symm
  · show ((c.cache.filter (fun en => !(containsCI en.1 p))).filter
        (fun en => containsCI en.1 p)).length = 0
    rw [List.filter_filter]
    simp

/-! ### C6: no error entries -/

theorem mem_alist_store (l : List (String × PyVal × ℚ)) (k : String)
    (v : PyVal × ℚ) (entry : String × PyVal × ℚ)
    (h : entry ∈ alist.store l k v) : entry = (k, v) ∨ entry ∈ l := by
  induction l with
  | nil =>
    simp [alist.store] at h
    exact Or.inl h
  | cons e rest ih =>
    unfold alist.store at h
    by_cases hk : e.1 = k
    · rw [if_pos hk] at h
      rcases List.mem_cons.1 h with h1 | h1
      · exact Or.inl h1
      · exact Or.inr (List.mem_cons_of_mem _ h1)
    · rw [if_neg hk] at h
      rcases List.mem_cons.1 h with h1 | h1
      · exact Or.inr (h1 ▸ List.mem_cons_self _ _)
      · rcases ih h1 with h2 | h2
        · exact Or.inl h2
        · exact Or.inr (List.mem_cons_of_mem _ h2)

theorem errFree_applyOp (keyFn : String → Params → String) (c : SimpleCache)
    (op : CacheOp) (h : errFree c) : errFree (applyOp keyFn c op) := by
  cases op with
  | opGet e p t =>
    show errFree (cacheGet keyFn c e p t).2
    unfold cacheGet
    rcases hl : alist.lookup c.cache (keyFn e p) with _ | ve
    · simpa [hl] using h
    · by_cases ht : t < ve.2
      · simpa [hl, ht] using h
      · simp only [hl, ht, if_false]
        intro entry hm
        exact h entry (List.mem_filter.1 hm).1
  | opSet e p v ttl t =>
    show errFree (cacheSet keyFn c e p v ttl t)
    unfold cacheSet
    by_cases hv : v.isErrorDict
    · simpa [hv] using h
    · simp only [hv, if_false]
      intro entry hm
      rcases mem_alist_store _ _ _ _ hm with h1 | h1
      · rw [h1]
        simpa using Bool.eq_false_iff.2 hv
      · exact h entry h1
  | opInvalidate pat =>
    show errFree (cacheInvalidate c pat).2
    cases pat with
    | none => intro entry hm; simp [cacheInvalidate] at hm
    | some q =>
      intro entry hm
      exact h entry (List.mem_filter.1 hm).1

/-- C6 (amended): every cache state reachable by any operation sequence from
an error-free state is error-free — a `set` whose value structurally
represents an error (a dict with an "error" key) is a no-op — and when no
entry is already stored under the same key, a subsequent `get` for the same
(endpoint, parameters) misses. (When a valid earlier non-error entry exists
under the key, that entry — never the error — is what `get` returns.) -/
theorem cache_never_stores_errors (keyFn : String → Params → String)
    (c : SimpleCache) (ops : List CacheOp) (h : errFree c) :
    errFree (runOps keyFn c ops) ∧
    (∀ (e : String) (p : Params) (v : PyVal) (ttl : Option ℚ) (t : ℚ),
      v.isErrorDict = true → cacheSet keyFn c e p v ttl t = c) ∧
    (∀ (e : String) (p : Params) (v : PyVal) (ttl : Option ℚ) (t t' : ℚ),
      v.isErrorDict = true →
      alist.lookup c.cache (keyFn e p) = none →
      (cacheGet keyFn (cacheSet keyFn c e p v ttl t) e p t').1 = none) := by
  refine ⟨?_, ?_, ?_⟩
  · induction ops generalizing c with
    | nil => exact h
    | cons op rest ih =>
      exact ih (applyOp keyFn c op) (errFree_applyOp keyFn c op h)
  · intro e p v ttl t hv
    simp [cacheSet, hv]
  · intro e p v ttl t t' hv hl
    have hset : cacheSet keyFn c e p v ttl t = c := by simp [cacheSet, hv]
    rw [hset]
    simp [cacheGet, hl]

/-- Witness for C6 (amended): a short concrete run stays error-free, an
error-valued `set` on the empty cache is a no-op, and the following `get`
misses. -/
theorem cache_never_stores_errors_witness :
    errFree (runOps (fun en _ => en) initCache
      [CacheOp.opSet "getproducts" [] (PyVal.vstr "r") none 0,
       CacheOp.opGet "getproducts" [] 1]) ∧
    cacheSet (fun en _ => en) initCache "getwarehouses" []
      (PyVal.vdict [("error", PyVal.vstr "boom")]) none 0 = initCache ∧
    (cacheGet (fun en _ => en)
      (cacheSet (fun en _ => en) initCache "getwarehouses" []
        (PyVal.vdict [("error", PyVal.vstr "boom")]) none 0)
      "getwarehouses" [] 1).1 = none := by
  have h := cache_never_stores_errors (fun en _ => en) initCache
    [CacheOp.opSet "getproducts" [] (PyVal.vstr "r") none 0,
     CacheOp.opGet "getproducts" [] 1]
    (by intro entry hm; simp [initCache] at hm)
  exact ⟨h.1, h.2.1 "getwarehouses" [] _ none 0 (by decide),
    h.2.2 "getwarehouses" [] _ none 0 1 (by decide) rfl⟩

/-- Counterexample for C6 as frozen: with a valid non-error entry already
cached for ("getproducts", []), a `set` of an error value is a no-op but the
subsequent `get` does not miss — it returns the earlier entry. -/
theorem cache_error_set_get_counterexample :
    ((PyVal.vdict [("error", PyVal.vstr "x")]).isErrorDict = true) ∧
    (cacheGet (fun en _ => en)
      (cacheSet (fun en _ => en)
        (cacheSet (fun en _ => en) initCache "getproducts" []
          (PyVal.vstr "r") none 0)
        "getproducts" [] (PyVal.vdict [("error", PyVal.vstr "x")]) none 0)
      "getproducts" [] 1).1 = some (PyVal.vstr "r") := by
  refine ⟨by decide, ?_⟩
  have h300 : getTtl (⟨[], 300⟩ : SimpleCache) "getproducts" = 300 := by
    decide
  have hset1 : cacheSet (fun en _ => en) initCache "getproducts" []
      (PyVal.vstr "r") none 0
      = { cache := [("getproducts", PyVal.vstr "r", 300)]
          defaultTtl := 300 } := by
    simp [cacheSet, PyVal.isErrorDict, h300, alist.store, initCache]
  have herr : (PyVal.vdict [("error", PyVal.vstr "x")]).isErrorDict = true :=
    by decide
  have hset2 : cacheSet (fun en _ => en)
      { cache := [("getproducts", PyVal.vstr "r", 300)], defaultTtl := 300 }
      "getproducts" [] (PyVal.vdict [("error", PyVal.vstr "x")]) none 0
      = { cache := [("getproducts", PyVal.vstr "r", 300)]
          defaultTtl := 300 } := by
    simp [cacheSet, herr]
  rw [hset1, hset2]
  simp [cacheGet, alist.lookup, List.find?]

/-! ### C9, C10: live limit updates and endpoint classification -/

theorem updateRateLimitFromError_lastCallTimes (rl : RateLimiter)
    (e msg : String) :
    (updateRateLimitFromError rl e msg).lastCallTimes = rl.lastCallTimes := by
  unfold updateRateLimitFromError
  cases extractRateLimit msg <;> rfl

theorem updateRateLimitFromError_retryCounts (rl : RateLimiter)
    (e msg : String) :
    (updateRateLimitFromError rl e msg).retryCounts = rl.retryCounts := by
  unfold updateRateLimitFromError
  cases extractRateLimit msg <;> rfl

theorem updateRateLimitFromError_backoffUntil (rl : RateLimiter)
    (e msg : String) :
    (updateRateLimitFromError rl e msg).backoffUntil = rl.backoffUntil := by
  unfold updateRateLimitFromError
  cases extractRateLimit msg <;> rfl

/-- C9 (amended): a message matching "Only N API calls per minute" rewrites
the limits-table entry for the exact lowercased endpoint name to N and
leaves every other key of the table — in particular the category-class key
whenever it differs from that lowercased name — unchanged; a non-matching
message changes nothing at all. -/
theorem updateRateLimit_exact_key (rl : RateLimiter) (e msg : String) :
    (∀ n, extractRateLimit msg = some n →
      ((updateRateLimitFromError rl e msg).rateLimits (strLower e) = some n ∧
        ∀ k, k ≠ strLower e →
          (updateRateLimitFromError rl e msg).rateLimits k
            = rl.rateLimits k)) ∧
    (extractRateLimit msg = none → updateRateLimitFromError rl e msg = rl) := by
  constructor
  · intro n hn
    unfold updateRateLimitFromError
    rw [hn]
    exact ⟨by simp [mupd], fun k hk => by simp [mupd, hk]⟩
  · intro hn
    unfold updateRateLimitFromError
    rw [hn]

/-- Witness for C9 (amended): "Only 2 API calls per minute" against
"GetSales" writes `rate_limits["getsales"] = 2`, leaves the "products" class
entry at its default, and a non-matching message is a no-op. -/
theorem updateRateLimit_exact_key_witness :
    (updateRateLimitFromError initRL "GetSales"
      "Only 2 API calls per minute").rateLimits "getsales" = some 2 ∧
    (updateRateLimitFromError initRL "GetSales"
      "Only 2 API calls per minute").rateLimits "products" = some 5 ∧
    updateRateLimitFromError initRL "GetSales" "welcome" = initRL := by
  have h := (updateRateLimit_exact_key initRL "GetSales"
    "Only 2 API calls per minute").1 2 (by decide)
  have hno := (updateRateLimit_exact_key initRL "GetSales" "welcome").2
    (by decide)
  have hlow : strLower "GetSales" = "getsales" := by decide
  rw [hlow] at h
  refine ⟨h.1, ?_, hno⟩
  rw [h.2 "products" (by decide)]
  decide

/-- Counterexample for C9 as frozen: updating the endpoint named "products"
(which is its own category class) rewrites the class-fallback entry, so the
effective limit of every other endpoint that classifies into the "products"
class — such as "getproductlist" — changes from 5 to 3. -/
theorem updateRateLimit_class_counterexample :
    getRateLimitKey initRL "getproductlist" = "products" ∧
    initRL.rateLimits "products" = some 5 ∧
    (updateRateLimitFromError initRL "products"
      "Only 3 API calls per minute").rateLimits "products" = some 3 ∧
    getRateLimitKey (updateRateLimitFromError initRL "products"
      "Only 3 API calls per minute") "getproductlist" = "products" := by
  refine ⟨by decide, by decide, ?_, ?_⟩ <;> decide

/-- C10: once `update_rate_limit_from_error` records a limit for an endpoint
`e` that had no exact entry in the table (and the four category-class keys
are present, as they are in the shipped table), `get_rate_limit_key` returns
`e`'s own lowercase name instead of its former category class; the former
class's `lastCallTime`, `retryCount` and `backoffUntil` entries are
untouched by `e`'s subsequent `wait_if_needed` / `handle_rate_limit_error`;
and when nothing was ever recorded under the fresh per-endpoint key, `e`'s
next `wait_if_needed` dispatches immediately, free of the former class's
accumulated spacing and backoff state. -/
theorem fresh_class_after_update (rl : RateLimiter) (e msg : String) (n : ℕ)
    (t : ℚ) (ra : Option ℚ)
    (hnone : rl.rateLimits (strLower e) = none)
    (hmatch : extractRateLimit msg = some n)
    (hp : (rl.rateLimits "products").isSome = true)
    (hw : (rl.rateLimits "warehouses").isSome = true)
    (hi : (rl.rateLimits "inventory").isSome = true)
    (hd : (rl.rateLimits "default").isSome = true) :
    getRateLimitKey (updateRateLimitFromError rl e msg) e = strLower e ∧
    getRateLimitKey rl e ≠ strLower e ∧
    ((waitIfNeeded (updateRateLimitFromError rl e msg) e t).rl.lastCallTimes
        (getRateLimitKey rl e) = rl.lastCallTimes (getRateLimitKey rl e)) ∧
    ((handleRateLimitError (updateRateLimitFromError rl e msg) e ra
        t).2.retryCounts (getRateLimitKey rl e)
      = rl.retryCounts (getRateLimitKey rl e)) ∧
    ((handleRateLimitError (updateRateLimitFromError rl e msg) e ra
        t).2.backoffUntil (getRateLimitKey rl e)
      = rl.backoffUntil (getRateLimitKey rl e)) ∧
    (rl.lastCallTimes (strLower e) = none →
      rl.backoffUntil (strLower e) = none →
      (waitIfNeeded (updateRateLimitFromError rl e msg) e t).dispatchTime
        = t) := by
  set rl' := updateRateLimitFromError rl e msg with hrl'
  have hup : rl'.rateLimits (strLower e) = some n := by
    rw [hrl']
    unfold updateRateLimitFromError
    rw [hmatch]
    simp [mupd]
  have hkey' : getRateLimitKey rl' e = strLower e := by
    unfold getRateLimitKey
    simp [hup]
  have hcases : getRateLimitKey rl e = "products" ∨
      getRateLimitKey rl e = "warehouses" ∨
      getRateLimitKey rl e = "inventory" ∨
      getRateLimitKey rl e = "default" := by
    unfold getRateLimitKey
    simp only [hnone, Option.isSome_none, Bool.false_eq_true, if_false]
    split
    · exact Or.inl rfl
    · split
      · exact Or.inr (Or.inl rfl)
      · split
        · exact Or.inr (Or.inr (Or.inl rfl))
        · exact Or.inr (Or.inr (Or.inr rfl))
  have hsome : (rl.rateLimits (getRateLimitKey rl e)).isSome = true := by
    rcases hcases with h | h | h | h <;> rw [h] <;> assumption
  have hne : getRateLimitKey rl e ≠ strLower e := by
    intro heq
    rw [heq, hnone] at hsome
    simp at hsome
  refine ⟨hkey', hne, ?_, ?_, ?_, ?_⟩
  · rw [waitIfNeeded_lastCallTimes, hkey', mupd, if_neg hne,
      updateRateLimitFromError_lastCallTimes]
  · rw [handleRateLimitError_retryCounts, hkey', mupd, if_neg hne,
      updateRateLimitFromError_retryCounts]
  · show mupd rl'.backoffUntil (getRateLimitKey rl' e) _ (getRateLimitKey rl e)
        = _
    rw [hkey', mupd, if_neg hne, updateRateLimitFromError_backoffUntil]
  · intro hl hb
    refine waitIfNeeded_dispatch_of_none rl' e (strLower e) t hkey' ?_ ?_
    · rw [updateRateLimitFromError_backoffUntil]
      exact hb
    · rw [updateRateLimitFromError_lastCallTimes]
      exact hl

/-- Witness for C10: "getsales" has no exact entry and classifies to
"default"; after learning "Only 2 API calls per minute" it is keyed by its
own name, and its next `wait_if_needed` at t = 5 dispatches at t = 5 while
the "default" class entries stay untouched. -/
theorem fresh_class_after_update_witness :
    getRateLimitKey (updateRateLimitFromError initRL "getsales"
      "Only 2 API calls per minute") "getsales" = "getsales" ∧
    getRateLimitKey initRL "getsales" = "default" ∧
    (waitIfNeeded (updateRateLimitFromError initRL "getsales"
      "Only 2 API calls per minute") "getsales" 5).rl.lastCallTimes "default"
      = none ∧
    (waitIfNeeded (updateRateLimitFromError initRL "getsales"
      "Only 2 API calls per minute") "getsales" 5).dispatchTime = 5 := by
  have h := fresh_class_after_update initRL "getsales"
    "Only 2 API calls per minute" 2 5 none (by decide) (by decide)
    (by decide) (by decide) (by decide) (by decide)
  have hlow : strLower "getsales" = "getsales" := by decide
  have hdk : getRateLimitKey initRL "getsales" = "default" := by decide
  refine ⟨by rw [h.1, hlow], hdk, ?_, h.2.2.2.2.2 rfl rfl⟩
  have h3 := h.2.2.1
  rw [hdk] at h3
  rw [h3]
  rfl

/-! ### C7: bounded concurrency of the request queue -/

/-- C7: from any start state within the bound (in particular 100 enqueued
items and no active executions with `max_concurrent = 2`), every state
reachable by interleaving worker-loop iterations with request completions
keeps the number of concurrently executing requests at or below
`max_concurrent`; and a worker iteration that finds the queue at capacity
only polls — it neither dispatches nor changes the state. -/
theorem queue_bounded_concurrency (maxConc : ℕ) (init s : QueueState)
    (hinit : init.active ≤ maxConc)
    (hr : QReachable maxConc init s) :
    s.active ≤ maxConc ∧
    (maxConc ≤ s.active → workerStep maxConc s = (.poll, s)) := by
  constructor
  · induction hr with
    | refl => exact hinit
    | tail hr' hstep ih =>
      rename_i sMid sNext
      cases hstep with
      | worker =>
        show (workerStep maxConc sMid).2.active ≤ maxConc
        unfold workerStep
        by_cases hcap : maxConc ≤ sMid.active
        · rw [if_pos hcap]
          exact ih
        · rw [if_neg hcap]
          rcases hpop : popMin sMid.queued with _ | pr
          · exact ih
          · show sMid.active + 1 ≤ maxConc
            omega
      | complete h =>
        show sMid.active - 1 ≤ maxConc
        omega
  · intro hcap
    unfold workerStep
    rw [if_pos hcap]

/-- Witness for C7: with 100 enqueued items and `max_concurrent = 2`, the
state after two worker iterations from the initial state — reached by two
`worker` steps — still satisfies the bound. -/
theorem queue_bounded_concurrency_witness :
    ((workerStep 2 (workerStep 2 ⟨bulkRequests100, 0⟩).2).2).active ≤ 2 :=
  (queue_bounded_concurrency 2 ⟨bulkRequests100, 0⟩
    ((workerStep 2 (workerStep 2 ⟨bulkRequests100, 0⟩).2).2)
    (Nat.zero_le 2)
    (QReachable.tail (QReachable.tail QReachable.refl (QStep.worker _))
      (QStep.worker _))).1

/-! ### C8: get_result outcomes -/

theorem getResultLoop_ok_exists (res : ℕ → Option StoredResult)
    (fuel i : ℕ) (p : PyVal)
    (h : getResultLoop res i fuel = GetOutcome.ok p) :
    ∃ j, res j = some (StoredResult.succeeded p) := by
  induction fuel generalizing i with
  | zero => exact absurd h (by simp [getResultLoop])
  | succ n ih =>
    unfold getResultLoop at h
    rcases hr : res i with _ | r
    · rw [hr] at h
      exact ih (i + 1) h
    · rw [hr] at h
      cases r with
      | succeeded q =>
        cases h
        exact ⟨i, hr⟩
      | failed m => cases h

theorem getResultLoop_failed_exists (res : ℕ → Option StoredResult)
    (fuel i : ℕ) (m : String)
    (h : getResultLoop res i fuel = GetOutcome.raisedStored m) :
    ∃ j, res j = some (StoredResult.failed m) := by
  induction fuel generalizing i with
  | zero => exact absurd h (by simp [getResultLoop])
  | succ n ih =>
    unfold getResultLoop at h
    rcases hr : res i with _ | r
    · rw [hr] at h
      exact ih (i + 1) h
    · rw [hr] at h
      cases r with
      | succeeded q => cases h
      | failed m' =>
        cases h
        exact ⟨i, hr⟩

theorem getResultLoop_none_timedOut (res : ℕ → Option StoredResult)
    (fuel i : ℕ) (h : ∀ j, res j = none) :
    getResultLoop res i fuel = GetOutcome.timedOut := by
  induction fuel generalizing i with
  | zero => rfl
  | succ n ih =>
    unfold getResultLoop
    rw [h i]
    exact ih (i + 1)

/-- C8: `get_result` returns the stored success payload when a success
result is recorded, raises the stored error when an error result is
recorded, and — being a bounded polling loop — never fabricates a success
(an `ok` outcome implies a recorded success) and never hangs: when no result
is ever recorded it raises a timeout error. -/
theorem getResult_fails_closed (res : ℕ → Option StoredResult) (fuel : ℕ) :
    (∀ p, getResult res fuel = GetOutcome.ok p →
      ∃ j, res j = some (StoredResult.succeeded p)) ∧
    (∀ m, getResult res fuel = GetOutcome.raisedStored m →
      ∃ j, res j = some (StoredResult.failed m)) ∧
    ((∀ j, res j = none) → getResult res fuel = GetOutcome.timedOut) ∧
    (∀ p, 0 < fuel → res 0 = some (StoredResult.succeeded p) →
      getResult res fuel = GetOutcome.ok p) ∧
    (∀ m, 0 < fuel → res 0 = some (StoredResult.failed m) →
      getResult res fuel = GetOutcome.raisedStored m) := by
  refine ⟨fun p h => getResultLoop_ok_exists res fuel 0 p h,
    fun m h => getResultLoop_failed_exists res fuel 0 m h,
    fun h => getResultLoop_none_timedOut res fuel 0 h, ?_, ?_⟩
  · intro p hf h0
    rcases fuel with _ | n
    · exact absurd hf (by omega)
    · unfold getResult getResultLoop
      rw [h0]
  · intro m hf h0
    rcases fuel with _ | n
    · exact absurd hf (by omega)
    · unfold getResult getResultLoop
      rw [h0]

/-- Witness for C8: with the 30 s / 0.1 s-poll budget (300 polls), a
recorded success is returned, a recorded error is raised, and a never
completing request times out. -/
theorem getResult_fails_closed_witness :
    getResult (fun _ => some (StoredResult.succeeded (PyVal.vstr "done")))
      300 = GetOutcome.ok (PyVal.vstr "done") ∧
    getResult (fun _ => some (StoredResult.failed "boom")) 300
      = GetOutcome.raisedStored "boom" ∧
    getResult (fun _ => none) 300 = GetOutcome.timedOut :=
  ⟨(getResult_fails_closed _ 300).2.2.2.1 _ (by omega) rfl,
    (getResult_fails_closed _ 300).2.2.2.2 _ (by omega) rfl,
    (getResult_fails_closed _ 300).2.2.1 (fun _ => rfl)⟩

/-! ### C1: the decorator stack on a cache hit -/

theorem waitIfNeeded_of_none (rl : RateLimiter) (e k : String) (t : ℚ)
    (hk : getRateLimitKey rl e = k)
    (hb : rl.backoffUntil k = none) (hl : rl.lastCallTimes k = none) :
    waitIfNeeded rl e t
      = ⟨{ rl with lastCallTimes := mupd rl.lastCallTimes k t }, t, 0, 0⟩ := by
  unfold waitIfNeeded
  rw [hk]
  simp [hb, hl]

theorem rlLoop_cache_hit (keyFn : String → Params → String)
    (transport : String → Params → ℚ → PyVal) (st : ClientState)
    (e : String) (p : Params) (v : PyVal) (fuel : ℕ)
    (hget : (cacheGet keyFn st.cache e p
        (waitIfNeeded st.rl e st.now).dispatchTime).1 = some v)
    (hv : v.isErrorDict = false) :
    rlLoop keyFn transport e p (fuel + 1) st
      = (v,
          ⟨resetRetryCount (waitIfNeeded st.rl e st.now).rl e,
            (cacheGet keyFn st.cache e p
              (waitIfNeeded st.rl e st.now).dispatchTime).2,
            (waitIfNeeded st.rl e st.now).dispatchTime⟩,
          [Event.rlWait ((waitIfNeeded st.rl e st.now).sleptBackoff
              + (waitIfNeeded st.rl e st.now).sleptSpacing),
            Event.cacheHit]) := by
  have hdet : rlDetect v = false := by simp [rlDetect, hv]
  rcases hg : cacheGet keyFn st.cache e p
      (waitIfNeeded st.rl e st.now).dispatchTime with ⟨ov, c'⟩
  have hov : ov = some v := by rw [← hget, hg]
  subst hov
  unfold rlLoop cachedCall
  simp only [hg, hdet, Bool.false_eq_true, if_false]

/-- C1 (amended): when the cache holds a valid (unexpired, non-error) entry
for (endpoint, parameters), `call_endpoint` returns the cached response
without ever invoking the HTTP transport — but only after the rate-limit
gate has run: `with_rate_limit` is the outer decorator, so
`RateLimiter.wait_if_needed` is invoked (and may sleep) before the cache is
consulted, the class's `lastCallTime` is set to the dispatch time, and the
class's `retryCount` is cleared on return. -/
theorem call_endpoint_cache_hit (keyFn : String → Params → String)
    (transport : String → Params → ℚ → PyVal) (st : ClientState)
    (e : String) (p : Params) (v : PyVal)
    (hget : (cacheGet keyFn st.cache e p
        (waitIfNeeded st.rl e st.now).dispatchTime).1 = some v)
    (hv : v.isErrorDict = false) :
    callEndpoint keyFn transport st e p
      = (v,
          ⟨resetRetryCount (waitIfNeeded st.rl e st.now).rl e,
            (cacheGet keyFn st.cache e p
              (waitIfNeeded st.rl e st.now).dispatchTime).2,
            (waitIfNeeded st.rl e st.now).dispatchTime⟩,
          [Event.rlWait ((waitIfNeeded st.rl e st.now).sleptBackoff
              + (waitIfNeeded st.rl e st.now).sleptSpacing),
            Event.cacheHit]) ∧
    Event.httpCall ∉ (callEndpoint keyFn transport st e p).2.2 ∧
    (resetRetryCount (waitIfNeeded st.rl e st.now).rl e).lastCallTimes
        (getRateLimitKey st.rl e)
      = some (waitIfNeeded st.rl e st.now).dispatchTime := by
  have h := rlLoop_cache_hit keyFn transport st e p v 2 hget hv
  refine ⟨h, ?_, ?_⟩
  · show Event.httpCall ∉ (rlLoop keyFn transport e p 3 st).2.2
    rw [h]
    intro hmem
    simp at hmem
  · show (waitIfNeeded st.rl e st.now).rl.lastCallTimes _ = _
    rw [waitIfNeeded_lastCallTimes, mupd]
    simp

/-- Witness for C1 (amended): with "getproducts" freshly cached and an idle
limiter at t = 0, the call returns the cached value, never fires the
transport, and records lastCallTime 0 for the class on the way. -/
theorem call_endpoint_cache_hit_witness :
    (callEndpoint (fun en _ => en) (fun _ _ _ => PyVal.vstr "fresh")
      ⟨initRL, ⟨[("getproducts", PyVal.vstr "cached", 100)], 300⟩, 0⟩
      "getproducts" []).1 = PyVal.vstr "cached" ∧
    Event.httpCall ∉ (callEndpoint (fun en _ => en)
      (fun _ _ _ => PyVal.vstr "fresh")
      ⟨initRL, ⟨[("getproducts", PyVal.vstr "cached", 100)], 300⟩, 0⟩
      "getproducts" []).2.2 := by
  have hw : waitIfNeeded initRL "getproducts" 0
      = ⟨{ initRL with
            lastCallTimes := mupd initRL.lastCallTimes "getproducts" 0 },
          0, 0, 0⟩ :=
    waitIfNeeded_of_none initRL "getproducts" "getproducts" 0 (by decide)
      rfl rfl
  have hget : (cacheGet (fun (en : String) (_ : Params) => en)
      (⟨[("getproducts", PyVal.vstr "cached", 100)], 300⟩ : SimpleCache)
      "getproducts" []
      (waitIfNeeded initRL "getproducts" 0).dispatchTime).1
      = some (PyVal.vstr "cached") := by
    rw [hw]
    simp [cacheGet, alist.lookup, List.find?]
  have h := call_endpoint_cache_hit (fun en _ => en)
    (fun _ _ _ => PyVal.vstr "fresh")
    ⟨initRL, ⟨[("getproducts", PyVal.vstr "cached", 100)], 300⟩, 0⟩
    "getproducts" [] (PyVal.vstr "cached") hget (by decide)
  exact ⟨by rw [h.1], h.2.1⟩

/-- Counterexample for C1 as frozen: on a valid cache hit the rate-limit
gate still runs — the event trace of the call starts with the
`wait_if_needed` gate, and the limiter's per-class `lastCallTime` for
"getproducts", absent before the call, is set by it. -/
theorem call_endpoint_gate_runs_counterexample :
    (callEndpoint (fun en _ => en) (fun _ _ _ => PyVal.vstr "fresh")
      ⟨initRL, ⟨[("getproducts", PyVal.vstr "cached", 100)], 300⟩, 0⟩
      "getproducts" []).1 = PyVal.vstr "cached" ∧
    (callEndpoint (fun en _ => en) (fun _ _ _ => PyVal.vstr "fresh")
      ⟨initRL, ⟨[("getproducts", PyVal.vstr "cached", 100)], 300⟩, 0⟩
      "getproducts" []).2.2 = [Event.rlWait 0, Event.cacheHit] ∧
    (callEndpoint (fun en _ => en) (fun _ _ _ => PyVal.vstr "fresh")
      ⟨initRL, ⟨[("getproducts", PyVal.vstr "cached", 100)], 300⟩, 0⟩
      "getproducts" []).2.1.rl.lastCallTimes "getproducts" = some 0 ∧
    initRL.lastCallTimes "getproducts" = none := by
  have hw : waitIfNeeded initRL "getproducts" 0
      = ⟨{ initRL with
            lastCallTimes := mupd initRL.lastCallTimes "getproducts" 0 },
          0, 0, 0⟩ :=
    waitIfNeeded_of_none initRL "getproducts" "getproducts" 0 (by decide)
      rfl rfl
  have hget : (cacheGet (fun (en : String) (_ : Params) => en)
      (⟨[("getproducts", PyVal.vstr "cached", 100)], 300⟩ : SimpleCache)
      "getproducts" []
      (waitIfNeeded initRL "getproducts" 0).dispatchTime).1
      = some (PyVal.vstr "cached") := by
    rw [hw]
    simp [cacheGet, alist.lookup, List.find?]
  have h := rlLoop_cache_hit (fun en _ => en)
    (fun _ _ _ => PyVal.vstr "fresh")
    ⟨initRL, ⟨[("getproducts", PyVal.vstr "cached", 100)], 300⟩, 0⟩
    "getproducts" [] (PyVal.vstr "cached") 2 hget (by decide)
  refine ⟨by rw [show callEndpoint (fun (en : String) (_ : Params) => en)
      (fun _ _ _ => PyVal.vstr "fresh")
      ⟨initRL, ⟨[("getproducts", PyVal.vstr "cached", 100)], 300⟩, 0⟩
      "getproducts" [] = _ from h], ?_, ?_, rfl⟩
  · rw [show callEndpoint (fun (en : String) (_ : Params) => en)
      (fun _ _ _ => PyVal.vstr "fresh")
      ⟨initRL, ⟨[("getproducts", PyVal.vstr "cached", 100)], 300⟩, 0⟩
      "getproducts" [] = _ from h, hw]
    norm_num
  · rw [show callEndpoint (fun (en : String) (_ : Params) => en)
      (fun _ _ _ => PyVal.vstr "fresh")
      ⟨initRL, ⟨[("getproducts", PyVal.vstr "cached", 100)], 300⟩, 0⟩
      "getproducts" [] = _ from h, hw]
    rfl

end SkuVault
